import Mathlib

/-
  A shallow embedding of the CommuniCraft inventory-ledger and
  completion-rollup routes (Express + Sequelize) as pure functions over an
  explicit database state.

  Sources embedded:
  - src/routes/project_material.js  (add / edit / delete material bindings)
  - src/routes/project_tool.js      (add / edit / delete tool bindings)
  - src/routes/project.js           (PUT /update-status/:projectID)
  - task routes (add-task / edit-task / delete-task)
  - the Sequelize models material, tool, project, task, project_material,
    project_tool (fields relevant to the ledger; the auto-increment
    surrogate `id` of binding rows is left implicit: a binding row is a
    list entry, `findOne` is first-match, `save`/`update` on a fetched row
    updates the first matching entry, `destroy` removes it).

  Quantities are modelled as `Int` because nothing in the models constrains
  them to be non-negative (the Sequelize validators only require integers).
-/

namespace CommuniCraft

/-- A row of the `material` table (models/Material.js). -/
structure Material where
  materialID : Nat
  materialName : String
  quantity : Int
  cost : Int
  userID : Nat
deriving DecidableEq

/-- A row of the `tool` table (models/Tool.js). -/
structure Tool where
  toolID : Nat
  toolName : String
  quantity : Int
  cost : Int
  userID : Nat
deriving DecidableEq

/-- A row of the `project` table (models/Project.js). -/
structure Project where
  projectID : Nat
  title : String
  description : String
  groupSize : Int
  difficulty : String
  category : String
  creatorID : Nat
  isCompleted : Bool
deriving DecidableEq

/-- A row of the `project_material` binding table (models/project_material). -/
structure ProjectMaterial where
  projectID : Nat
  materialID : Nat
  quantityUsed : Int
deriving DecidableEq

/-- A row of the `project_tool` binding table (models/project_tool). -/
structure ProjectTool where
  projectID : Nat
  toolID : Nat
  quantityUsed : Int
deriving DecidableEq

/-- A row of the `task` table (models/Task.js); `comments` is the
free-text `Comments` column. -/
structure Task where
  taskID : Nat
  description : String
  comments : String
  status : String
  userID : Nat
  projectID : Nat
deriving DecidableEq

/-- A row of the `user` table (models/User.js), reduced to the columns the
embedded routes read. -/
structure User where
  userID : Nat
  userName : String
  email : String
deriving DecidableEq

/-- The whole relational store reachable from the embedded routes. -/
structure Db where
  users : List User
  projects : List Project
  materials : List Material
  tools : List Tool
  projectMaterials : List ProjectMaterial
  projectTools : List ProjectTool
  tasks : List Task
deriving DecidableEq

/-- Error kinds surfaced by the routes (HTTP 404 / 400 bodies). -/
inductive ApiError
  | notFound
  | invalidQuantity
  | insufficientStock
  | missingFields
deriving DecidableEq

/-- `Project.findByPk(projectID)`. -/
def findProject (db : Db) (projectID : Nat) : Option Project :=
  db.projects.find? (fun p => p.projectID == projectID)

/-- `Material.findByPk(materialID)`. -/
def findMaterial (db : Db) (materialID : Nat) : Option Material :=
  db.materials.find? (fun m => m.materialID == materialID)

/-- `Tool.findByPk(toolID)`. -/
def findTool (db : Db) (toolID : Nat) : Option Tool :=
  db.tools.find? (fun t => t.toolID == toolID)

/-- `User.findByPk(userID)`. -/
def findUser (db : Db) (userID : Nat) : Option User :=
  db.users.find? (fun u => u.userID == userID)

/-- `ProjectMaterial.findOne({where: {projectID, materialID}})`. -/
def findProjectMaterial (db : Db) (projectID materialID : Nat) :
    Option ProjectMaterial :=
  db.projectMaterials.find?
    (fun pm => pm.projectID == projectID && pm.materialID == materialID)

/-- `ProjectTool.findOne({where: {projectID, toolID}})`. -/
def findProjectTool (db : Db) (projectID toolID : Nat) : Option ProjectTool :=
  db.projectTools.find?
    (fun pt => pt.projectID == projectID && pt.toolID == toolID)

/-- `material.update({quantity})` on the row fetched by primary key:
overwrite the `quantity` of the first row with this `materialID`. -/
def setMaterialQuantity : List Material → Nat → Int → List Material
  | [], _, _ => []
  | m :: rest, id, q =>
    if m.materialID == id then { m with quantity := q } :: rest
    else m :: setMaterialQuantity rest id q

/-- `tool.update({quantity})` on the row fetched by primary key. -/
def setToolQuantity : List Tool → Nat → Int → List Tool
  | [], _, _ => []
  | t :: rest, id, q =>
    if t.toolID == id then { t with quantity := q } :: rest
    else t :: setToolQuantity rest id q

/-- `projectMaterial.save()` / `.update({quantityUsed})` on the row fetched
by `findOne`: overwrite `quantityUsed` of the first row matching the pair. -/
def setPMQuantityUsed : List ProjectMaterial → Nat → Nat → Int → List ProjectMaterial
  | [], _, _, _ => []
  | pm :: rest, p, m, q =>
    if pm.projectID == p && pm.materialID == m then
      { pm with quantityUsed := q } :: rest
    else pm :: setPMQuantityUsed rest p m q

/-- `projectTool.update({quantityUsed})` on the row fetched by `findOne`. -/
def setPTQuantityUsed : List ProjectTool → Nat → Nat → Int → List ProjectTool
  | [], _, _, _ => []
  | pt :: rest, p, t, q =>
    if pt.projectID == p && pt.toolID == t then
      { pt with quantityUsed := q } :: rest
    else pt :: setPTQuantityUsed rest p t q

/-- `projectMaterial.destroy()` on the row fetched by `findOne`: remove the
first row matching the pair. -/
def removePM : List ProjectMaterial → Nat → Nat → List ProjectMaterial
  | [], _, _ => []
  | pm :: rest, p, m =>
    if pm.projectID == p && pm.materialID == m then rest
    else pm :: removePM rest p m

/-- `projectTool.destroy()` on the row fetched by `findOne`. -/
def removePT : List ProjectTool → Nat → Nat → List ProjectTool
  | [], _, _ => []
  | pt :: rest, p, t =>
    if pt.projectID == p && pt.toolID == t then rest
    else pt :: removePT rest p t

/-- `project.save()` after assigning `project.isCompleted`: overwrite the
flag of the first row with this `projectID`. -/
def setProjectCompleted : List Project → Nat → Bool → List Project
  | [], _, _ => []
  | p :: rest, id, b =>
    if p.projectID == id then { p with isCompleted := b } :: rest
    else p :: setProjectCompleted rest id b

/-- `task.save()` after conditional field assignments: rewrite the first
row with this `taskID` through `f`. -/
def updateTask : List Task → Nat → (Task → Task) → List Task
  | [], _, _ => []
  | t :: rest, id, f =>
    if t.taskID == id then f t :: rest
    else t :: updateTask rest id f

/-- `task.destroy()`: remove the first row with this `taskID`. -/
def removeTask : List Task → Nat → List Task
  | [], _ => []
  | t :: rest, id =>
    if t.taskID == id then rest
    else t :: removeTask rest id

/-- POST `/:projectID/materials/add/:materialID`
(src/routes/project_material.js lines 80-123).  Looks up project and
material (404 if either is missing), rejects `quantityUsed <= 0` (400),
then upserts the binding (create, or increment the found row) and finally
writes `material.quantity - quantityUsed` back to the material.  Note that
this handler has no stock check before the decrement. -/
def addMaterialToProject (db : Db) (projectID materialID : Nat)
    (quantityUsed : Int) : Except ApiError Db :=
  match findProject db projectID, findMaterial db materialID with
  | some _, some material =>
    if quantityUsed ≤ 0 then .error .invalidQuantity
    else
      let pms :=
        match findProjectMaterial db projectID materialID with
        | none =>
          db.projectMaterials ++ [⟨projectID, materialID, quantityUsed⟩]
        | some projectMaterial =>
          setPMQuantityUsed db.projectMaterials projectID materialID
            (projectMaterial.quantityUsed + quantityUsed)
      let db1 := { db with projectMaterials := pms }
      let mats := setMaterialQuantity db1.materials materialID
        (material.quantity - quantityUsed)
      .ok { db1 with materials := mats }
  | _, _ => .error .notFound

/-- POST `/:projectID/tools/add/:toolID`
(src/routes/project_tool.js lines 65-93).  Looks up project and tool (404),
rejects `quantityUsed <= 0` (400) and `quantityUsed > tool.quantity` (400),
then decrements the tool stock and unconditionally `create`s a fresh
`project_tool` row (no `findOne` / increment step). -/
def addToolToProject (db : Db) (projectID toolID : Nat)
    (quantityUsed : Int) : Except ApiError Db :=
  match findProject db projectID, findTool db toolID with
  | some _, some tool =>
    if quantityUsed ≤ 0 then .error .invalidQuantity
    else if tool.quantity < quantityUsed then .error .insufficientStock
    else
      let tls := setToolQuantity db.tools toolID (tool.quantity - quantityUsed)
      let db1 := { db with tools := tls }
      let pts := db1.projectTools ++ [⟨projectID, toolID, quantityUsed⟩]
      .ok { db1 with projectTools := pts }
  | _, _ => .error .notFound

/-- PUT `/:projectID/materials/edit/:materialID`
(src/routes/project_material.js lines 185-218).  Finds the binding (404)
and the material (404), computes `quantityDifference = quantityUsed -
projectMaterial.quantityUsed`; a negative difference returns stock, a
positive one within the available stock consumes it, every other case
(including a difference of zero) answers 400 "Insufficient quantity"; on
the two success paths the binding is then overwritten with `quantityUsed`. -/
def editMaterialInProject (db : Db) (projectID materialID : Nat)
    (quantityUsed : Int) : Except ApiError Db :=
  match findProjectMaterial db projectID materialID with
  | none => .error .notFound
  | some projectMaterial =>
    match findMaterial db materialID with
    | none => .error .notFound
    | some material =>
      let quantityDifference := quantityUsed - projectMaterial.quantityUsed
      if quantityDifference < 0 then
        let mats := setMaterialQuantity db.materials materialID
          (material.quantity + |quantityDifference|)
        let pms := setPMQuantityUsed db.projectMaterials projectID materialID
          quantityUsed
        .ok { db with materials := mats, projectMaterials := pms }
      else if 0 < quantityDifference ∧ quantityDifference ≤ material.quantity then
        let mats := setMaterialQuantity db.materials materialID
          (material.quantity - quantityDifference)
        let pms := setPMQuantityUsed db.projectMaterials projectID materialID
          quantityUsed
        .ok { db with materials := mats, projectMaterials := pms }
      else .error .insufficientStock

/-- PUT `/:projectID/tools/edit/:toolID`
(src/routes/project_tool.js lines 155-198); same algorithm as the material
edit route, over the tool tables. -/
def editToolInProject (db : Db) (projectID toolID : Nat)
    (quantityUsed : Int) : Except ApiError Db :=
  match findProjectTool db projectID toolID with
  | none => .error .notFound
  | some projectTool =>
    match findTool db toolID with
    | none => .error .notFound
    | some tool =>
      let quantityDifference := quantityUsed - projectTool.quantityUsed
      if quantityDifference < 0 then
        let tls := setToolQuantity db.tools toolID
          (tool.quantity + |quantityDifference|)
        let pts := setPTQuantityUsed db.projectTools projectID toolID
          quantityUsed
        .ok { db with tools := tls, projectTools := pts }
      else if 0 < quantityDifference ∧ quantityDifference ≤ tool.quantity then
        let tls := setToolQuantity db.tools toolID
          (tool.quantity - quantityDifference)
        let pts := setPTQuantityUsed db.projectTools projectID toolID
          quantityUsed
        .ok { db with tools := tls, projectTools := pts }
      else .error .insufficientStock

/-- DELETE `/:projectID/materials/delete/:materialID`
(src/routes/project_material.js lines 330-344).  Finds the binding (404)
and destroys it; no other table is touched. -/
def deleteMaterialFromProject (db : Db) (projectID materialID : Nat) :
    Except ApiError Db :=
  match findProjectMaterial db projectID materialID with
  | none => .error .notFound
  | some _ =>
    .ok { db with projectMaterials := removePM db.projectMaterials projectID materialID }

/-- DELETE `/:projectID/tools/delete/:toolID`
(src/routes/project_tool.js lines 238-252). -/
def deleteToolFromProject (db : Db) (projectID toolID : Nat) :
    Except ApiError Db :=
  match findProjectTool db projectID toolID with
  | none => .error .notFound
  | some _ =>
    .ok { db with projectTools := removePT db.projectTools projectID toolID }

/-- `Task.findAll({where: {projectID}})`. -/
def projectTasks (db : Db) (projectID : Nat) : List Task :=
  db.tasks.filter (fun t => t.projectID == projectID)

/-- PUT `/update-status/:projectID` (src/routes/project.js lines 459-480).
Finds the project (404), fetches its tasks and assigns
`project.isCompleted = tasks.every(task => task.status === 'completed')`
(vacuously `true` on an empty task list, as `Array.prototype.every` is). -/
def updateProjectStatus (db : Db) (projectID : Nat) : Except ApiError Db :=
  match findProject db projectID with
  | none => .error .notFound
  | some _ =>
    let isCompleted := (projectTasks db projectID).all
      (fun task => task.status == "completed")
    .ok { db with projects := setProjectCompleted db.projects projectID isCompleted }

/-- POST `/add-task/:userID/:projectID` (task routes lines 58-80).  Rejects
missing `description`/`Comments`/`status` (an absent or empty field is
falsy in JS), checks user and project exist (404), then `Task.create`s the
row.  The fresh primary key is passed in as `taskID`. -/
def addTask (db : Db) (taskID userID projectID : Nat)
    (description comments status : String) : Except ApiError Db :=
  if description == "" || comments == "" || status == "" then
    .error .missingFields
  else
    match findUser db userID, findProject db projectID with
    | some _, some _ =>
      let ts := db.tasks ++ [⟨taskID, description, comments, status, userID, projectID⟩]
      .ok { db with tasks := ts }
    | _, _ => .error .notFound

/-- The conditional field assignments of the edit-task handler:
`if (description) task.description = description` and likewise for
`Comments` and `status` (an empty string is falsy, so it leaves the field). -/
def applyTaskEdit (t : Task) (description comments status : String) : Task :=
  let t1 := if description == "" then t else { t with description := description }
  let t2 := if comments == "" then t1 else { t1 with comments := comments }
  if status == "" then t2 else { t2 with status := status }

/-- PUT `/edit-task/:taskID` (task routes lines 124-146).  Finds the task
(404), overwrites whichever of the three fields were provided, saves. -/
def editTask (db : Db) (taskID : Nat)
    (description comments status : String) : Except ApiError Db :=
  match db.tasks.find? (fun t => t.taskID == taskID) with
  | none => .error .notFound
  | some _ =>
    let ts := updateTask db.tasks taskID
      (fun t => applyTaskEdit t description comments status)
    .ok { db with tasks := ts }

/-- DELETE `/delete-task/:taskID` (task routes lines 303-320). -/
def deleteTask (db : Db) (taskID : Nat) : Except ApiError Db :=
  match db.tasks.find? (fun t => t.taskID == taskID) with
  | none => .error .notFound
  | some _ =>
    .ok { db with tasks := removeTask db.tasks taskID }

/-- Number of binding rows for one (project, material) pair. -/
def countPM (l : List ProjectMaterial) (projectID materialID : Nat) : Nat :=
  (l.filter (fun pm => pm.projectID == projectID && pm.materialID == materialID)).length

/-- Number of binding rows for one (project, tool) pair. -/
def countPT (l : List ProjectTool) (projectID toolID : Nat) : Nat :=
  (l.filter (fun pt => pt.projectID == projectID && pt.toolID == toolID)).length

/-- Total `quantityUsed` committed to projects from one material, over all
its binding rows. -/
def committedMaterial (l : List ProjectMaterial) (materialID : Nat) : Int :=
  ((l.filter (fun pm => pm.materialID == materialID)).map
    ProjectMaterial.quantityUsed).sum

/-- Total `quantityUsed` committed from one tool. -/
def committedTool (l : List ProjectTool) (toolID : Nat) : Int :=
  ((l.filter (fun pt => pt.toolID == toolID)).map
    ProjectTool.quantityUsed).sum

/-- The conservation quantity of one material: on-hand stock plus the sum
of the committed quantities of its still-existing bindings. -/
def materialLedgerTotal (db : Db) (materialID : Nat) : Int :=
  (match findMaterial db materialID with
   | some m => m.quantity
   | none => 0) + committedMaterial db.projectMaterials materialID

/-- The conservation quantity of one tool. -/
def toolLedgerTotal (db : Db) (toolID : Nat) : Int :=
  (match findTool db toolID with
   | some t => t.quantity
   | none => 0) + committedTool db.projectTools toolID

/-! ### Lemmas about the row-update helpers -/

/-- Updating the quantity of a material leaves lookup of that material's
row with the new quantity written in. -/
theorem find?_setMaterialQuantity (l : List Material) (id : Nat) (q : Int) :
    (setMaterialQuantity l id q).find? (fun m => m.materialID == id)
      = (l.find? (fun m => m.materialID == id)).map
          (fun m => { m with quantity := q }) := by
  induction l with
  | nil => simp [setMaterialQuantity]
  | cons hd tl ih =>
    by_cases h : hd.materialID = id
    · simp [setMaterialQuantity, h]
    · have hb : (hd.materialID == id) = false := by simp [h]
      simp [setMaterialQuantity, hb, ih]

/-- Tool version of `find?_setMaterialQuantity`. -/
theorem find?_setToolQuantity (l : List Tool) (id : Nat) (q : Int) :
    (setToolQuantity l id q).find? (fun t => t.toolID == id)
      = (l.find? (fun t => t.toolID == id)).map
          (fun t => { t with quantity := q }) := by
  induction l with
  | nil => simp [setToolQuantity]
  | cons hd tl ih =>
    by_cases h : hd.toolID = id
    · simp [setToolQuantity, h]
    · have hb : (hd.toolID == id) = false := by simp [h]
      simp [setToolQuantity, hb, ih]

/-- Overwriting the first binding of a (project, material) pair leaves
lookup of the pair with the new `quantityUsed` written in. -/
theorem find?_setPMQuantityUsed (l : List ProjectMaterial) (p m : Nat) (q : Int) :
    (setPMQuantityUsed l p m q).find?
        (fun pm => pm.projectID == p && pm.materialID == m)
      = (l.find? (fun pm => pm.projectID == p && pm.materialID == m)).map
          (fun pm => { pm with quantityUsed := q }) := by
  induction l with
  | nil => simp [setPMQuantityUsed]
  | cons hd tl ih =>
    by_cases h : hd.projectID = p ∧ hd.materialID = m
    · have hb : (hd.projectID == p && hd.materialID == m) = true := by
        simp [h.1, h.2]
      simp [setPMQuantityUsed, hb]
    · have hb : (hd.projectID == p && hd.materialID == m) = false := by
        rcases not_and_or.mp h with h1 | h1 <;> simp [h1]
      simp [setPMQuantityUsed, hb, ih]

/-- Tool version of `find?_setPMQuantityUsed`. -/
theorem find?_setPTQuantityUsed (l : List ProjectTool) (p t : Nat) (q : Int) :
    (setPTQuantityUsed l p t q).find?
        (fun pt => pt.projectID == p && pt.toolID == t)
      = (l.find? (fun pt => pt.projectID == p && pt.toolID == t)).map
          (fun pt => { pt with quantityUsed := q }) := by
  induction l with
  | nil => simp [setPTQuantityUsed]
  | cons hd tl ih =>
    by_cases h : hd.projectID = p ∧ hd.toolID = t
    · have hb : (hd.projectID == p && hd.toolID == t) = true := by
        simp [h.1, h.2]
      simp [setPTQuantityUsed, hb]
    · have hb : (hd.projectID == p && hd.toolID == t) = false := by
        rcases not_and_or.mp h with h1 | h1 <;> simp [h1]
      simp [setPTQuantityUsed, hb, ih]

/-- Appending a row to a list in which the predicate finds nothing makes
that row the first (and only) hit, provided it satisfies the predicate. -/
theorem find?_append_of_none {α : Type} (l : List α) (pred : α → Bool) (x : α)
    (hl : l.find? pred = none) (hx : pred x = true) :
    (l ++ [x]).find? pred = some x := by
  induction l with
  | nil => simp [hx]
  | cons hd tl ih =>
    rcases List.find?_eq_none.mp hl hd (by simp) with h
    have hb : ¬ pred hd = true := h
    have htl : tl.find? pred = none := by
      rw [List.find?_cons_of_neg _ hb] at hl
      exact hl
    have hb' : pred hd = false := by
      cases hp : pred hd
      · rfl
      · exact absurd hp h
    simp [List.find?_cons_of_neg _ hb, ih htl, hb']

/-! ### Lemmas about binding-row counts -/

/-- Appending a row of the pair adds one to the pair's row count. -/
theorem countPM_append (l : List ProjectMaterial) (p m : Nat) (q : Int) :
    countPM (l ++ [⟨p, m, q⟩]) p m = countPM l p m + 1 := by
  simp [countPM, List.filter_append]

/-- Overwriting a row's `quantityUsed` never changes a pair's row count. -/
theorem countPM_setPMQuantityUsed (l : List ProjectMaterial) (p m : Nat) (q : Int) :
    countPM (setPMQuantityUsed l p m q) p m = countPM l p m := by
  induction l with
  | nil => simp [setPMQuantityUsed]
  | cons hd tl ih =>
    cases hb : (hd.projectID == p && hd.materialID == m) with
    | true => simp [setPMQuantityUsed, countPM, hb, List.filter_cons]
    | false =>
      simp only [setPMQuantityUsed, hb, Bool.false_eq_true, if_false]
      simp [countPM, List.filter_cons, hb] at ih ⊢
      exact ih

/-- If `findOne` misses the pair, the pair has no rows at all. -/
theorem countPM_eq_zero (l : List ProjectMaterial) (p m : Nat)
    (h : l.find? (fun pm => pm.projectID == p && pm.materialID == m) = none) :
    countPM l p m = 0 := by
  induction l with
  | nil => simp [countPM]
  | cons hd tl ih =>
    have hhd := List.find?_eq_none.mp h hd (by simp)
    have hb : (hd.projectID == p && hd.materialID == m) = false := by
      cases hx : (hd.projectID == p && hd.materialID == m)
      · rfl
      · exact absurd hx hhd
    have htl : tl.find? (fun pm => pm.projectID == p && pm.materialID == m) = none := by
      rw [List.find?_cons_of_neg _ (by simp [hb])] at h
      exact h
    have h0 := ih htl
    simp [countPM, List.filter_cons, hb] at h0 ⊢
    exact h0

/-- If `findOne` hits the pair, the pair has at least one row. -/
theorem countPM_pos (l : List ProjectMaterial) (p m : Nat) (pm : ProjectMaterial)
    (h : l.find? (fun x => x.projectID == p && x.materialID == m) = some pm) :
    1 ≤ countPM l p m := by
  induction l with
  | nil => simp [List.find?] at h
  | cons hd tl ih =>
    cases hb : (hd.projectID == p && hd.materialID == m) with
    | true => simp [countPM, List.filter_cons, hb]
    | false =>
      rw [List.find?_cons_of_neg _ (by simp [hb])] at h
      simp [countPM, List.filter_cons, hb] at ih ⊢
      exact ih h

/-- Destroying the row `findOne` returned removes exactly one row of the
pair. -/
theorem countPM_removePM (l : List ProjectMaterial) (p m : Nat) (pm : ProjectMaterial)
    (h : l.find? (fun x => x.projectID == p && x.materialID == m) = some pm) :
    countPM (removePM l p m) p m + 1 = countPM l p m := by
  induction l with
  | nil => simp [List.find?] at h
  | cons hd tl ih =>
    cases hb : (hd.projectID == p && hd.materialID == m) with
    | true => simp [removePM, countPM, List.filter_cons, hb]
    | false =>
      rw [List.find?_cons_of_neg _ (by simp [hb])] at h
      simp only [removePM, hb, Bool.false_eq_true, if_false]
      simp [countPM, List.filter_cons, hb] at ih ⊢
      exact ih h

/-- Tool version of `countPM_append`. -/
theorem countPT_append (l : List ProjectTool) (p t : Nat) (q : Int) :
    countPT (l ++ [⟨p, t, q⟩]) p t = countPT l p t + 1 := by
  simp [countPT, List.filter_append]

/-- Tool version of `countPM_removePM`. -/
theorem countPT_removePT (l : List ProjectTool) (p t : Nat) (pt : ProjectTool)
    (h : l.find? (fun x => x.projectID == p && x.toolID == t) = some pt) :
    countPT (removePT l p t) p t + 1 = countPT l p t := by
  induction l with
  | nil => simp [List.find?] at h
  | cons hd tl ih =>
    cases hb : (hd.projectID == p && hd.toolID == t) with
    | true => simp [removePT, countPT, List.filter_cons, hb]
    | false =>
      rw [List.find?_cons_of_neg _ (by simp [hb])] at h
      simp only [removePT, hb, Bool.false_eq_true, if_false]
      simp [countPT, List.filter_cons, hb] at ih ⊢
      exact ih h

/-! ### Lemmas about the committed-quantity sums -/

/-- Appending a binding row of the material adds its quantity to the
committed sum. -/
theorem committedMaterial_append (l : List ProjectMaterial) (p m : Nat) (q : Int) :
    committedMaterial (l ++ [⟨p, m, q⟩]) m = committedMaterial l m + q := by
  simp [committedMaterial, List.filter_append]

/-- Overwriting the `quantityUsed` of the row `findOne` returned shifts the
material's committed sum by the difference. -/
theorem committedMaterial_setPMQuantityUsed (l : List ProjectMaterial)
    (p m : Nat) (q : Int) (pm : ProjectMaterial)
    (h : l.find? (fun x => x.projectID == p && x.materialID == m) = some pm) :
    committedMaterial (setPMQuantityUsed l p m q) m
      = committedMaterial l m + q - pm.quantityUsed := by
  induction l with
  | nil => simp [List.find?] at h
  | cons hd tl ih =>
    cases hb : (hd.projectID == p && hd.materialID == m) with
    | true =>
      rw [List.find?_cons_of_pos _ (by simp [hb])] at h
      have hm : (hd.materialID == m) = true := (Bool.and_eq_true _ _ |>.mp hb).2
      have hp : (hd.projectID == p) = true := (Bool.and_eq_true _ _ |>.mp hb).1
      cases h
      have hp' : pm.projectID = p := by simpa using hp
      simp [setPMQuantityUsed, hb, committedMaterial, List.filter_cons, hm, hp']
      ring
    | false =>
      rw [List.find?_cons_of_neg _ (by simp [hb])] at h
      have h0 := ih h
      simp only [setPMQuantityUsed, hb, Bool.false_eq_true, if_false]
      cases hm : (hd.materialID == m) with
      | true =>
        simp [committedMaterial, List.filter_cons, hm] at h0 ⊢
        rw [h0]
        ring
      | false =>
        simp [committedMaterial, List.filter_cons, hm] at h0 ⊢
        rw [h0]

/-- Tool version of `committedMaterial_append`. -/
theorem committedTool_append (l : List ProjectTool) (p t : Nat) (q : Int) :
    committedTool (l ++ [⟨p, t, q⟩]) t = committedTool l t + q := by
  simp [committedTool, List.filter_append]

/-- Tool version of `committedMaterial_setPMQuantityUsed`. -/
theorem committedTool_setPTQuantityUsed (l : List ProjectTool)
    (p t : Nat) (q : Int) (pt : ProjectTool)
    (h : l.find? (fun x => x.projectID == p && x.toolID == t) = some pt) :
    committedTool (setPTQuantityUsed l p t q) t
      = committedTool l t + q - pt.quantityUsed := by
  induction l with
  | nil => simp [List.find?] at h
  | cons hd tl ih =>
    cases hb : (hd.projectID == p && hd.toolID == t) with
    | true =>
      rw [List.find?_cons_of_pos _ (by simp [hb])] at h
      have hm : (hd.toolID == t) = true := (Bool.and_eq_true _ _ |>.mp hb).2
      have hp : (hd.projectID == p) = true := (Bool.and_eq_true _ _ |>.mp hb).1
      cases h
      have hp' : pt.projectID = p := by simpa using hp
      simp [setPTQuantityUsed, hb, committedTool, List.filter_cons, hm, hp']
      ring
    | false =>
      rw [List.find?_cons_of_neg _ (by simp [hb])] at h
      have h0 := ih h
      simp only [setPTQuantityUsed, hb, Bool.false_eq_true, if_false]
      cases hm : (hd.toolID == t) with
      | true =>
        simp [committedTool, List.filter_cons, hm] at h0 ⊢
        rw [h0]
        ring
      | false =>
        simp [committedTool, List.filter_cons, hm] at h0 ⊢
        rw [h0]

/-! ### Lemmas about the project-flag update -/

/-- Writing the completion flag leaves lookup of that project's row with
the new flag written in. -/
theorem find?_setProjectCompleted (l : List Project) (id : Nat) (b : Bool) :
    (setProjectCompleted l id b).find? (fun p => p.projectID == id)
      = (l.find? (fun p => p.projectID == id)).map
          (fun p => { p with isCompleted := b }) := by
  induction l with
  | nil => simp [setProjectCompleted]
  | cons hd tl ih =>
    by_cases h : hd.projectID = id
    · simp [setProjectCompleted, h]
    · have hb : (hd.projectID == id) = false := by simp [h]
      simp [setProjectCompleted, hb, ih]

/-- Row-by-row description of the completion-flag write: every row is
either untouched, or is the named project's row with only its flag
overwritten. -/
theorem forall₂_setProjectCompleted (l : List Project) (id : Nat) (b : Bool) :
    List.Forall₂
      (fun p p' => p' = p ∨ (p.projectID = id ∧ p' = { p with isCompleted := b }))
      l (setProjectCompleted l id b) := by
  induction l with
  | nil => simp [setProjectCompleted]
  | cons hd tl ih =>
    by_cases h : hd.projectID = id
    · have hb : (hd.projectID == id) = true := by simp [h]
      simp only [setProjectCompleted, hb, if_true]
      exact List.Forall₂.cons (Or.inr ⟨h, rfl⟩)
        (List.forall₂_same.mpr (fun x _ => Or.inl rfl))
    · have hb : (hd.projectID == id) = false := by simp [h]
      simp only [setProjectCompleted, hb, Bool.false_eq_true, if_false]
      exact List.Forall₂.cons (Or.inl rfl) ih

/-! ### Concrete states for counterexamples and witnesses -/

/-- The `.ok` payload of a route result, with a fallback. -/
def okOr (e : Except ApiError Db) (d : Db) : Db :=
  match e with
  | .ok x => x
  | .error _ => d

/-- An example user row. -/
def exUser : User := ⟨9, "ada", "ada at example dot com"⟩

/-- An example project row. -/
def exProject1 : Project := ⟨1, "chair", "a chair", 3, "easy", "wood crafts", 9, false⟩

/-- A second example project row. -/
def exProject2 : Project := ⟨2, "table", "a table", 3, "easy", "wood crafts", 9, false⟩

/-- State of spec Scenario B: material 7 has 3 units on hand and no
binding exists. -/
def dbScenarioB : Db :=
  ⟨[exUser], [exProject1, exProject2], [⟨7, "plank", 3, 5, 9⟩], [], [], [], []⟩

/-- A state with an on-hand stock of 10 for material 7 and tool 7, one
binding of each to project 1 with 2 units committed, and two tasks. -/
def dbRich : Db :=
  ⟨[exUser], [exProject1, exProject2],
   [⟨7, "plank", 10, 5, 9⟩], [⟨7, "saw", 10, 5, 9⟩],
   [⟨1, 7, 2⟩], [⟨1, 7, 2⟩],
   [⟨1, "cut", "ok", "completed", 9, 1⟩, ⟨2, "glue", "todo", "pending", 9, 2⟩]⟩

/-! ### Claims -/

/-- Claim C1.  The spec says a Commit with `quantityRequested >
resource.quantity` fails with InsufficientStock for materials and tools
alike, and the material route's own API documentation announces that 400
response; but the material handler has no stock check: in Scenario B's
state (stock 3) a commit of 5 units succeeds, creates the binding with
`quantityUsed = 5` and drives `material.quantity` to -2. -/
theorem C1_material_commit_ignores_stock :
    (addMaterialToProject dbScenarioB 2 7 5).map
        (fun db => ((findMaterial db 7).map Material.quantity,
                    (findProjectMaterial db 2 7).map ProjectMaterial.quantityUsed))
      = .ok (some (-2), some 5) := rfl

/-- Claim C2, counterexample.  Two successful tool Commits for the pair
(project 1, tool 7) leave two `project_tool` rows for that pair, not at
most one: the tool route unconditionally `create`s a row. -/
theorem C2_tool_commit_duplicate_rows :
    ((addToolToProject dbRich 2 7 1).bind
        (fun d1 => addToolToProject d1 2 7 1)).map
      (fun d2 => countPT d2.projectTools 2 7) = .ok 2 := rfl

/-- Claim C2, amended.  The single-binding-per-pair invariant holds for
materials only: a material Commit upserts, so a pair's row count becomes
`max count 1`; a tool Commit always appends a fresh row, so the pair's
row count grows by one on every success. -/
theorem C2_material_upsert_tool_append
    (db dbm dbt : Db) (p m t : Nat) (q r : Int)
    (hm : addMaterialToProject db p m q = .ok dbm)
    (ht : addToolToProject db p t r = .ok dbt) :
    countPM dbm.projectMaterials p m = max (countPM db.projectMaterials p m) 1 ∧
    countPT dbt.projectTools p t = countPT db.projectTools p t + 1 := by
  constructor
  · unfold addMaterialToProject at hm
    cases hp : findProject db p <;> rw [hp] at hm
    case none => exact absurd hm (by simp)
    case some proj =>
      cases hmm : findMaterial db m <;> rw [hmm] at hm
      case none => exact absurd hm (by simp)
      case some mat =>
        by_cases hq : q ≤ 0
        · simp [hq] at hm
        · simp only [if_neg hq] at hm
          cases hfind : findProjectMaterial db p m <;> rw [hfind] at hm
          · injection hm with h
            subst h
            dsimp only
            rw [countPM_append]
            unfold findProjectMaterial at hfind
            rw [countPM_eq_zero db.projectMaterials p m hfind]
            omega
          · injection hm with h
            subst h
            dsimp only
            rw [countPM_setPMQuantityUsed]
            unfold findProjectMaterial at hfind
            rename_i pm0
            have h1 := countPM_pos db.projectMaterials p m pm0 hfind
            omega
  · unfold addToolToProject at ht
    cases hp : findProject db p <;> rw [hp] at ht
    case none => exact absurd ht (by simp)
    case some proj =>
      cases htt : findTool db t <;> rw [htt] at ht
      case none => exact absurd ht (by simp)
      case some tool =>
        by_cases hr : r ≤ 0
        · simp [hr] at ht
        · simp only [if_neg hr] at ht
          by_cases hs : tool.quantity < r
          · simp [hs] at ht
          · simp only [if_neg hs] at ht
            injection ht with h
            subst h
            dsimp only
            rw [countPT_append]

/-- Claim C2, witness of the amended statement at a concrete state: one
binding of each kind already exists for the pair (1, 7). -/
theorem C2_material_upsert_tool_append_witness :
    countPM (okOr (addMaterialToProject dbRich 1 7 4) dbRich).projectMaterials 1 7
        = max (countPM dbRich.projectMaterials 1 7) 1 ∧
    countPT (okOr (addToolToProject dbRich 1 7 4) dbRich).projectTools 1 7
        = countPT dbRich.projectTools 1 7 + 1 :=
  C2_material_upsert_tool_append dbRich
    (okOr (addMaterialToProject dbRich 1 7 4) dbRich)
    (okOr (addToolToProject dbRich 1 7 4) dbRich)
    1 7 7 4 4 rfl rfl

/-- Claim C3, counterexample.  The spec's policy says a project with zero
tasks recomputes to `isCompleted = false`; the handler assigns
`tasks.every(task => task.status === 'completed')`, which is vacuously
true on an empty task list, so the task-less project 2 of Scenario B's
state is marked completed. -/
theorem C3_empty_task_set_marked_completed :
    (updateProjectStatus dbScenarioB 2).map
        (fun db => (findProject db 2).map Project.isCompleted)
      = .ok (some true) := rfl

/-- Claim C3, amended.  Recompute sets the named project's `isCompleted`
to the universal quantification "every fetched task has status completed"
with no non-emptiness requirement, so a project with zero tasks gets
`isCompleted = true`. -/
theorem C3_rollup_vacuous_on_empty (db : Db) (pid : Nat) (db' : Db)
    (h : updateProjectStatus db pid = .ok db') :
    (findProject db' pid).map Project.isCompleted
      = some ((projectTasks db pid).all (fun t => t.status == "completed")) := by
  unfold updateProjectStatus at h
  cases hp : findProject db pid <;> rw [hp] at h
  · exact absurd h (by simp)
  · injection h with h
    subst h
    unfold findProject
    dsimp only
    rw [find?_setProjectCompleted]
    unfold findProject at hp
    rw [hp]
    rfl

/-- Claim C3, witness of the amended statement: project 1 of the example
state has exactly one task and it is completed, so the flag becomes true. -/
theorem C3_rollup_vacuous_on_empty_witness :
    (findProject (okOr (updateProjectStatus dbRich 1) dbRich) 1).map Project.isCompleted
      = some ((projectTasks dbRich 1).all (fun t => t.status == "completed")) :=
  C3_rollup_vacuous_on_empty dbRich 1 (okOr (updateProjectStatus dbRich 1) dbRich) rfl

/-- Claim C4, counterexample.  The spec says Adjust with `newQuantityUsed`
equal to the binding's current `quantityUsed` (delta = 0) succeeds as a
no-op; in the example state the binding (project 1, material 7) holds 2
units and an edit to 2 answers 400 InsufficientStock instead, because the
handler's then / else-if conditions (`delta < 0`, `0 < delta <= stock`)
are both false at delta = 0 and the final else rejects. -/
theorem C4_adjust_equal_quantity_rejected :
    editMaterialInProject dbRich 1 7 2 = .error .insufficientStock := rfl

/-- Claim C4, amended.  For an existing binding and resource of either
kind, Adjust with `newQuantityUsed` equal to the binding's current
`quantityUsed` (delta = 0) fails with InsufficientStock and leaves the
state unchanged, rather than succeeding with the unchanged binding. -/
theorem C4_adjust_delta_zero_errors (db : Db) (p m t : Nat)
    (pm : ProjectMaterial) (mat : Material) (pt : ProjectTool) (tl : Tool)
    (hpm : findProjectMaterial db p m = some pm) (hmat : findMaterial db m = some mat)
    (hpt : findProjectTool db p t = some pt) (htl : findTool db t = some tl) :
    editMaterialInProject db p m pm.quantityUsed = .error .insufficientStock ∧
    editToolInProject db p t pt.quantityUsed = .error .insufficientStock := by
  constructor
  · unfold editMaterialInProject
    rw [hpm, hmat]
    simp
  · unfold editToolInProject
    rw [hpt, htl]
    simp

/-- Claim C4, witness of the amended statement at the example state, for
both the material and the tool edit route. -/
theorem C4_adjust_delta_zero_errors_witness :
    editMaterialInProject dbRich 1 7 2 = .error .insufficientStock ∧
    editToolInProject dbRich 1 7 2 = .error .insufficientStock :=
  C4_adjust_delta_zero_errors dbRich 1 7 7
    ⟨1, 7, 2⟩ ⟨7, "plank", 10, 5, 9⟩ ⟨1, 7, 2⟩ ⟨7, "saw", 10, 5, 9⟩
    rfl rfl rfl rfl

/-- Claim C5, counterexample.  The conservation equation fails as soon as
a Release occurs: from a stock of 10, a Commit of 4 keeps the total at 10
(stock 6 + binding 4), but the subsequent Release deletes the binding
without restoring stock, leaving a total of 6. -/
theorem C5_release_breaks_conservation :
    materialLedgerTotal dbRich 7 = 12 ∧
    ((addMaterialToProject dbRich 2 7 4).bind
        (fun d1 => deleteMaterialFromProject d1 2 7)).map
      (fun d2 => materialLedgerTotal d2 7) = .ok 8 := ⟨rfl, rfl⟩

/-- Claim C5, amended.  The conservation equation `resource.quantity + sum
of surviving bindings' quantityUsed = constant` is preserved by every
successful Commit and Adjust, for materials and tools alike; it is not
preserved by Release, which removes a binding without restoring its
quantity to the resource. -/
theorem C5_commit_adjust_conserve (db : Db) (p m t : Nat) (q r u v : Int)
    (dbm dbm2 dbt dbt2 : Db)
    (h1 : addMaterialToProject db p m q = .ok dbm)
    (h2 : editMaterialInProject db p m r = .ok dbm2)
    (h3 : addToolToProject db p t u = .ok dbt)
    (h4 : editToolInProject db p t v = .ok dbt2) :
    materialLedgerTotal dbm m = materialLedgerTotal db m ∧
    materialLedgerTotal dbm2 m = materialLedgerTotal db m ∧
    toolLedgerTotal dbt t = toolLedgerTotal db t ∧
    toolLedgerTotal dbt2 t = toolLedgerTotal db t := by
  refine ⟨?_, ?_, ?_, ?_⟩
  · unfold addMaterialToProject at h1
    cases hp : findProject db p <;> rw [hp] at h1
    · exact absurd h1 (by simp)
    · cases hmm : findMaterial db m <;> rw [hmm] at h1
      · exact absurd h1 (by simp)
      · rename_i mat
        by_cases hq : q ≤ 0
        · simp [hq] at h1
        · simp only [if_neg hq] at h1
          cases hfind : findProjectMaterial db p m <;> rw [hfind] at h1
          · injection h1 with h1
            subst h1
            unfold materialLedgerTotal findMaterial
            dsimp only
            rw [find?_setMaterialQuantity]
            unfold findMaterial at hmm
            rw [hmm, committedMaterial_append]
            simp only [Option.map_some']
            ring
          · rename_i pm0
            injection h1 with h1
            subst h1
            unfold materialLedgerTotal findMaterial
            dsimp only
            rw [find?_setMaterialQuantity]
            unfold findMaterial at hmm
            unfold findProjectMaterial at hfind
            rw [hmm,
              committedMaterial_setPMQuantityUsed db.projectMaterials p m
                (pm0.quantityUsed + q) pm0 hfind]
            simp only [Option.map_some']
            ring
  · unfold editMaterialInProject at h2
    cases hpm : findProjectMaterial db p m <;> rw [hpm] at h2
    · exact absurd h2 (by simp)
    · rename_i pm0
      cases hmm : findMaterial db m <;> rw [hmm] at h2
      · exact absurd h2 (by simp)
      · rename_i mat
        dsimp only at h2
        by_cases hd : r - pm0.quantityUsed < 0
        · rw [if_pos hd] at h2
          injection h2 with h2
          subst h2
          unfold materialLedgerTotal findMaterial
          dsimp only
          rw [find?_setMaterialQuantity]
          unfold findMaterial at hmm
          unfold findProjectMaterial at hpm
          rw [hmm, committedMaterial_setPMQuantityUsed db.projectMaterials p m r pm0 hpm]
          simp only [Option.map_some']
          rw [abs_of_neg hd]
          ring
        · rw [if_neg hd] at h2
          by_cases hd2 : 0 < r - pm0.quantityUsed ∧ r - pm0.quantityUsed ≤ mat.quantity
          · rw [if_pos hd2] at h2
            injection h2 with h2
            subst h2
            unfold materialLedgerTotal findMaterial
            dsimp only
            rw [find?_setMaterialQuantity]
            unfold findMaterial at hmm
            unfold findProjectMaterial at hpm
            rw [hmm, committedMaterial_setPMQuantityUsed db.projectMaterials p m r pm0 hpm]
            simp only [Option.map_some']
            ring
          · rw [if_neg hd2] at h2
            exact absurd h2 (by simp)
  · unfold addToolToProject at h3
    cases hp : findProject db p <;> rw [hp] at h3
    · exact absurd h3 (by simp)
    · cases htt : findTool db t <;> rw [htt] at h3
      · exact absurd h3 (by simp)
      · rename_i tool
        by_cases hu : u ≤ 0
        · simp [hu] at h3
        · simp only [if_neg hu] at h3
          by_cases hs : tool.quantity < u
          · simp [hs] at h3
          · simp only [if_neg hs] at h3
            injection h3 with h3
            subst h3
            unfold toolLedgerTotal findTool
            dsimp only
            rw [find?_setToolQuantity]
            unfold findTool at htt
            rw [htt, committedTool_append]
            simp only [Option.map_some']
            ring
  · unfold editToolInProject at h4
    cases hpt : findProjectTool db p t <;> rw [hpt] at h4
    · exact absurd h4 (by simp)
    · rename_i pt0
      cases htt : findTool db t <;> rw [htt] at h4
      · exact absurd h4 (by simp)
      · rename_i tool
        dsimp only at h4
        by_cases hd : v - pt0.quantityUsed < 0
        · rw [if_pos hd] at h4
          injection h4 with h4
          subst h4
          unfold toolLedgerTotal findTool
          dsimp only
          rw [find?_setToolQuantity]
          unfold findTool at htt
          unfold findProjectTool at hpt
          rw [htt, committedTool_setPTQuantityUsed db.projectTools p t v pt0 hpt]
          simp only [Option.map_some']
          rw [abs_of_neg hd]
          ring
        · rw [if_neg hd] at h4
          by_cases hd2 : 0 < v - pt0.quantityUsed ∧ v - pt0.quantityUsed ≤ tool.quantity
          · rw [if_pos hd2] at h4
            injection h4 with h4
            subst h4
            unfold toolLedgerTotal findTool
            dsimp only
            rw [find?_setToolQuantity]
            unfold findTool at htt
            unfold findProjectTool at hpt
            rw [htt, committedTool_setPTQuantityUsed db.projectTools p t v pt0 hpt]
            simp only [Option.map_some']
            ring
          · rw [if_neg hd2] at h4
            exact absurd h4 (by simp)

/-- Claim C5, witness of the amended statement: from the example state,
a material commit of 4, a material adjust to 4, a tool commit of 4 and a
tool adjust to 4 all succeed and each preserves its resource's ledger
total. -/
theorem C5_commit_adjust_conserve_witness :
    materialLedgerTotal (okOr (addMaterialToProject dbRich 1 7 4) dbRich) 7
        = materialLedgerTotal dbRich 7 ∧
    materialLedgerTotal (okOr (editMaterialInProject dbRich 1 7 4) dbRich) 7
        = materialLedgerTotal dbRich 7 ∧
    toolLedgerTotal (okOr (addToolToProject dbRich 1 7 4) dbRich) 7
        = toolLedgerTotal dbRich 7 ∧
    toolLedgerTotal (okOr (editToolInProject dbRich 1 7 4) dbRich) 7
        = toolLedgerTotal dbRich 7 :=
  C5_commit_adjust_conserve dbRich 1 7 7 4 4 4 4
    (okOr (addMaterialToProject dbRich 1 7 4) dbRich)
    (okOr (editMaterialInProject dbRich 1 7 4) dbRich)
    (okOr (addToolToProject dbRich 1 7 4) dbRich)
    (okOr (editToolInProject dbRich 1 7 4) dbRich)
    rfl rfl rfl rfl

/-- Claim C6.  A material Commit with positive quantity on an existing
project and material succeeds; when no binding exists for the pair it
creates one with `quantityUsed = quantityRequested`, otherwise it
increments the found binding's `quantityUsed` by `quantityRequested`; in
both cases the material's stock is decremented by exactly
`quantityRequested`. -/
theorem C6_material_commit_effect (db : Db) (p m : Nat) (q : Int)
    (proj : Project) (mat : Material)
    (hp : findProject db p = some proj) (hm : findMaterial db m = some mat)
    (hq : 0 < q) :
    ∃ db', addMaterialToProject db p m q = .ok db' ∧
      (findMaterial db' m).map Material.quantity = some (mat.quantity - q) ∧
      (findProjectMaterial db p m = none →
        findProjectMaterial db' p m = some ⟨p, m, q⟩) ∧
      (∀ pm, findProjectMaterial db p m = some pm →
        findProjectMaterial db' p m
          = some { pm with quantityUsed := pm.quantityUsed + q }) := by
  unfold addMaterialToProject
  rw [hp, hm]
  dsimp only
  rw [if_neg (not_le.mpr hq)]
  cases hfind : findProjectMaterial db p m
  · refine ⟨_, rfl, ?_, ?_, ?_⟩
    · unfold findMaterial
      dsimp only
      rw [find?_setMaterialQuantity]
      unfold findMaterial at hm
      rw [hm]
      rfl
    · intro _
      unfold findProjectMaterial at hfind ⊢
      dsimp only
      exact find?_append_of_none _ _ _ hfind (by simp)
    · intro pm hpm
      simp at hpm
  · rename_i pm0
    refine ⟨_, rfl, ?_, ?_, ?_⟩
    · unfold findMaterial
      dsimp only
      rw [find?_setMaterialQuantity]
      unfold findMaterial at hm
      rw [hm]
      rfl
    · intro hc
      simp at hc
    · intro pm hpm
      injection hpm with hpm
      subst hpm
      unfold findProjectMaterial at hfind ⊢
      dsimp only
      rw [find?_setPMQuantityUsed, hfind]
      rfl

/-- Claim C6, witness: in the example state material 7 has stock 10; a
commit of 4 units to project 2 (no binding yet) succeeds, creates the
binding at 4 and leaves stock 6, and a commit of 4 units to project 1
(binding at 2) succeeds, raises the binding to 6 and leaves stock 6. -/
theorem C6_material_commit_effect_witness :
    (∃ db', addMaterialToProject dbRich 2 7 4 = .ok db' ∧
      (findMaterial db' 7).map Material.quantity = some (10 - 4) ∧
      (findProjectMaterial dbRich 2 7 = none →
        findProjectMaterial db' 2 7 = some ⟨2, 7, 4⟩) ∧
      (∀ pm, findProjectMaterial dbRich 2 7 = some pm →
        findProjectMaterial db' 2 7
          = some { pm with quantityUsed := pm.quantityUsed + 4 })) ∧
    (∃ db', addMaterialToProject dbRich 1 7 4 = .ok db' ∧
      (findMaterial db' 7).map Material.quantity = some (10 - 4) ∧
      (findProjectMaterial dbRich 1 7 = none →
        findProjectMaterial db' 1 7 = some ⟨1, 7, 4⟩) ∧
      (∀ pm, findProjectMaterial dbRich 1 7 = some pm →
        findProjectMaterial db' 1 7
          = some { pm with quantityUsed := pm.quantityUsed + 4 })) :=
  ⟨C6_material_commit_effect dbRich 2 7 4 exProject2 ⟨7, "plank", 10, 5, 9⟩
      rfl rfl (by decide),
   C6_material_commit_effect dbRich 1 7 4 exProject1 ⟨7, "plank", 10, 5, 9⟩
      rfl rfl (by decide)⟩

/-- Claim C7.  For an existing material binding and material, Adjust with
a nonzero delta behaves as specified: a negative delta always succeeds and
returns `abs delta` units to stock, a positive delta within the available
stock consumes it; in both cases the binding's `quantityUsed` becomes the
requested new value. -/
theorem C7_adjust_nonzero_delta (db : Db) (p m : Nat) (newQ : Int)
    (pm : ProjectMaterial) (mat : Material)
    (hpm : findProjectMaterial db p m = some pm)
    (hmat : findMaterial db m = some mat) :
    (newQ - pm.quantityUsed < 0 →
      ∃ db', editMaterialInProject db p m newQ = .ok db' ∧
        (findMaterial db' m).map Material.quantity
          = some (mat.quantity + |newQ - pm.quantityUsed|) ∧
        (findProjectMaterial db' p m).map ProjectMaterial.quantityUsed
          = some newQ) ∧
    (0 < newQ - pm.quantityUsed → newQ - pm.quantityUsed ≤ mat.quantity →
      ∃ db', editMaterialInProject db p m newQ = .ok db' ∧
        (findMaterial db' m).map Material.quantity
          = some (mat.quantity - (newQ - pm.quantityUsed)) ∧
        (findProjectMaterial db' p m).map ProjectMaterial.quantityUsed
          = some newQ) := by
  constructor
  · intro hd
    unfold editMaterialInProject
    rw [hpm, hmat]
    dsimp only
    rw [if_pos hd]
    refine ⟨_, rfl, ?_, ?_⟩
    · unfold findMaterial
      dsimp only
      rw [find?_setMaterialQuantity]
      unfold findMaterial at hmat
      rw [hmat]
      rfl
    · unfold findProjectMaterial
      dsimp only
      rw [find?_setPMQuantityUsed]
      unfold findProjectMaterial at hpm
      rw [hpm]
      rfl
  · intro hd hle
    unfold editMaterialInProject
    rw [hpm, hmat]
    dsimp only
    rw [if_neg (by omega : ¬ newQ - pm.quantityUsed < 0), if_pos ⟨hd, hle⟩]
    refine ⟨_, rfl, ?_, ?_⟩
    · unfold findMaterial
      dsimp only
      rw [find?_setMaterialQuantity]
      unfold findMaterial at hmat
      rw [hmat]
      rfl
    · unfold findProjectMaterial
      dsimp only
      rw [find?_setPMQuantityUsed]
      unfold findProjectMaterial at hpm
      rw [hpm]
      rfl

/-- Claim C7, witness: in the example state the binding (1, 7) holds 2
units and material 7 has stock 10; an adjust to 1 (delta -1) and an adjust
to 5 (delta 3) both succeed with the specified stock movements. -/
theorem C7_adjust_nonzero_delta_witness :
    ((1 : Int) - 2 < 0 →
      ∃ db', editMaterialInProject dbRich 1 7 1 = .ok db' ∧
        (findMaterial db' 7).map Material.quantity = some (10 + |(1 : Int) - 2|) ∧
        (findProjectMaterial db' 1 7).map ProjectMaterial.quantityUsed
          = some 1) ∧
    (0 < (5 : Int) - 2 → (5 : Int) - 2 ≤ 10 →
      ∃ db', editMaterialInProject dbRich 1 7 5 = .ok db' ∧
        (findMaterial db' 7).map Material.quantity = some (10 - ((5 : Int) - 2)) ∧
        (findProjectMaterial db' 1 7).map ProjectMaterial.quantityUsed
          = some 5) :=
  ⟨(C7_adjust_nonzero_delta dbRich 1 7 1 ⟨1, 7, 2⟩ ⟨7, "plank", 10, 5, 9⟩
      rfl rfl).1,
   (C7_adjust_nonzero_delta dbRich 1 7 5 ⟨1, 7, 2⟩ ⟨7, "plank", 10, 5, 9⟩
      rfl rfl).2⟩

/-- Claim C8.  Release (the delete routes) removes exactly one binding row
of the pair and leaves every resource record untouched: the whole
materials and tools tables, and with them the resource's `quantity`, are
unchanged. -/
theorem C8_release_is_pure_removal (db : Db) (p m t : Nat)
    (pm : ProjectMaterial) (pt : ProjectTool)
    (hpm : findProjectMaterial db p m = some pm)
    (hpt : findProjectTool db p t = some pt) :
    (∃ db', deleteMaterialFromProject db p m = .ok db' ∧
      db'.materials = db.materials ∧ db'.tools = db.tools ∧
      findMaterial db' m = findMaterial db m ∧
      countPM db'.projectMaterials p m + 1 = countPM db.projectMaterials p m) ∧
    (∃ db', deleteToolFromProject db p t = .ok db' ∧
      db'.tools = db.tools ∧ db'.materials = db.materials ∧
      findTool db' t = findTool db t ∧
      countPT db'.projectTools p t + 1 = countPT db.projectTools p t) := by
  constructor
  · unfold deleteMaterialFromProject
    rw [hpm]
    refine ⟨_, rfl, rfl, rfl, rfl, ?_⟩
    unfold findProjectMaterial at hpm
    exact countPM_removePM db.projectMaterials p m pm hpm
  · unfold deleteToolFromProject
    rw [hpt]
    refine ⟨_, rfl, rfl, rfl, rfl, ?_⟩
    unfold findProjectTool at hpt
    exact countPT_removePT db.projectTools p t pt hpt

/-- Claim C8, witness at the example state, which holds one binding of
each kind for the pair (1, 7). -/
theorem C8_release_is_pure_removal_witness :
    (∃ db', deleteMaterialFromProject dbRich 1 7 = .ok db' ∧
      db'.materials = dbRich.materials ∧ db'.tools = dbRich.tools ∧
      findMaterial db' 7 = findMaterial dbRich 7 ∧
      countPM db'.projectMaterials 1 7 + 1 = countPM dbRich.projectMaterials 1 7) ∧
    (∃ db', deleteToolFromProject dbRich 1 7 = .ok db' ∧
      db'.tools = dbRich.tools ∧ db'.materials = dbRich.materials ∧
      findTool db' 7 = findTool dbRich 7 ∧
      countPT db'.projectTools 1 7 + 1 = countPT dbRich.projectTools 1 7) :=
  C8_release_is_pure_removal dbRich 1 7 7 ⟨1, 7, 2⟩ ⟨1, 7, 2⟩ rfl rfl

/-- Claim C9.  Task creation, edit and deletion never touch the project
table: after any of the three task routes succeeds, the project list — and
with it every project's `isCompleted` flag — is exactly what it was; the
flag only moves when the update-status route is invoked explicitly. -/
theorem C9_task_ops_preserve_completion (db dbA dbE dbD : Db)
    (tidA tidE tidD uid pid : Nat) (d c s d2 c2 s2 : String)
    (hA : addTask db tidA uid pid d c s = .ok dbA)
    (hE : editTask db tidE d2 c2 s2 = .ok dbE)
    (hD : deleteTask db tidD = .ok dbD) :
    dbA.projects = db.projects ∧ dbE.projects = db.projects ∧
    dbD.projects = db.projects ∧
    (∀ q, (findProject dbA q).map Project.isCompleted
        = (findProject db q).map Project.isCompleted) ∧
    (∀ q, (findProject dbE q).map Project.isCompleted
        = (findProject db q).map Project.isCompleted) ∧
    (∀ q, (findProject dbD q).map Project.isCompleted
        = (findProject db q).map Project.isCompleted) := by
  have hA' : dbA.projects = db.projects := by
    unfold addTask at hA
    by_cases hf : d == "" || c == "" || s == ""
    · rw [if_pos hf] at hA
      exact absurd hA (by simp)
    · rw [if_neg hf] at hA
      cases hu : findUser db uid <;> rw [hu] at hA
      · exact absurd hA (by simp)
      · cases hp : findProject db pid <;> rw [hp] at hA
        · exact absurd hA (by simp)
        · injection hA with hA
          subst hA
          rfl
  have hE' : dbE.projects = db.projects := by
    unfold editTask at hE
    cases ht : db.tasks.find? (fun t => t.taskID == tidE) <;> rw [ht] at hE
    · exact absurd hE (by simp)
    · injection hE with hE
      subst hE
      rfl
  have hD' : dbD.projects = db.projects := by
    unfold deleteTask at hD
    cases ht : db.tasks.find? (fun t => t.taskID == tidD) <;> rw [ht] at hD
    · exact absurd hD (by simp)
    · injection hD with hD
      subst hD
      rfl
  refine ⟨hA', hE', hD', ?_, ?_, ?_⟩ <;> intro q <;>
    simp only [findProject, hA', hE', hD']

/-- Claim C9, witness: at the example state a task creation, a task edit
and a task deletion all succeed and leave every project row as it was. -/
theorem C9_task_ops_preserve_completion_witness :
    (okOr (addTask dbRich 3 9 1 "sand" "todo" "pending") dbRich).projects
        = dbRich.projects ∧
    (okOr (editTask dbRich 2 "glue" "done" "completed") dbRich).projects
        = dbRich.projects ∧
    (okOr (deleteTask dbRich 1) dbRich).projects = dbRich.projects ∧
    (∀ q, (findProject (okOr (addTask dbRich 3 9 1 "sand" "todo" "pending") dbRich) q).map
        Project.isCompleted = (findProject dbRich q).map Project.isCompleted) ∧
    (∀ q, (findProject (okOr (editTask dbRich 2 "glue" "done" "completed") dbRich) q).map
        Project.isCompleted = (findProject dbRich q).map Project.isCompleted) ∧
    (∀ q, (findProject (okOr (deleteTask dbRich 1) dbRich) q).map
        Project.isCompleted = (findProject dbRich q).map Project.isCompleted) :=
  C9_task_ops_preserve_completion dbRich
    (okOr (addTask dbRich 3 9 1 "sand" "todo" "pending") dbRich)
    (okOr (editTask dbRich 2 "glue" "done" "completed") dbRich)
    (okOr (deleteTask dbRich 1) dbRich)
    3 2 1 9 1 "sand" "todo" "pending" "glue" "done" "completed"
    rfl rfl rfl

/-- Claim C10.  A successful update-status changes nothing but the named
project's `isCompleted` flag: the user, material, tool, binding and task
tables are untouched, and the project list is related row-by-row to the
old one so that ids, titles, descriptions, group sizes, difficulties,
categories and creators are all preserved and any project other than the
named one keeps its flag. -/
theorem C10_recompute_touches_only_flag (db : Db) (pid : Nat) (db' : Db)
    (h : updateProjectStatus db pid = .ok db') :
    db'.users = db.users ∧ db'.materials = db.materials ∧
    db'.tools = db.tools ∧ db'.projectMaterials = db.projectMaterials ∧
    db'.projectTools = db.projectTools ∧ db'.tasks = db.tasks ∧
    List.Forall₂ (fun p p' =>
      p'.projectID = p.projectID ∧ p'.title = p.title ∧
      p'.description = p.description ∧ p'.groupSize = p.groupSize ∧
      p'.difficulty = p.difficulty ∧ p'.category = p.category ∧
      p'.creatorID = p.creatorID ∧
      (p.projectID ≠ pid → p'.isCompleted = p.isCompleted))
      db.projects db'.projects := by
  unfold updateProjectStatus at h
  cases hp : findProject db pid <;> rw [hp] at h
  · exact absurd h (by simp)
  · injection h with h
    subst h
    refine ⟨rfl, rfl, rfl, rfl, rfl, rfl, ?_⟩
    refine List.Forall₂.imp ?_ (forall₂_setProjectCompleted db.projects pid _)
    intro a b hab
    rcases hab with hab | ⟨hid, hab⟩
    · subst hab
      exact ⟨rfl, rfl, rfl, rfl, rfl, rfl, rfl, fun _ => rfl⟩
    · subst hab
      exact ⟨rfl, rfl, rfl, rfl, rfl, rfl, rfl, fun hne => absurd hid hne⟩

/-- Claim C10, witness at the example state: recomputing project 1 leaves
every other table and every non-flag field untouched. -/
theorem C10_recompute_touches_only_flag_witness :
    (okOr (updateProjectStatus dbRich 1) dbRich).users = dbRich.users ∧
    (okOr (updateProjectStatus dbRich 1) dbRich).materials = dbRich.materials ∧
    (okOr (updateProjectStatus dbRich 1) dbRich).tools = dbRich.tools ∧
    (okOr (updateProjectStatus dbRich 1) dbRich).projectMaterials
        = dbRich.projectMaterials ∧
    (okOr (updateProjectStatus dbRich 1) dbRich).projectTools
        = dbRich.projectTools ∧
    (okOr (updateProjectStatus dbRich 1) dbRich).tasks = dbRich.tasks ∧
    List.Forall₂ (fun p p' =>
      p'.projectID = p.projectID ∧ p'.title = p.title ∧
      p'.description = p.description ∧ p'.groupSize = p.groupSize ∧
      p'.difficulty = p.difficulty ∧ p'.category = p.category ∧
      p'.creatorID = p.creatorID ∧
      (p.projectID ≠ 1 → p'.isCompleted = p.isCompleted))
      dbRich.projects (okOr (updateProjectStatus dbRich 1) dbRich).projects :=
  C10_recompute_touches_only_flag dbRich 1
    (okOr (updateProjectStatus dbRich 1) dbRich) rfl

end CommuniCraft
